import Mathlib

/-!
Shallow embedding of the redirector proxy's decision core (src/proxy.go):
the blacklist loader `InitHosts`, the decision function `IsDenied`, and the
clock-state watcher cycle `IsClocking` / `Visit`.

Go strings are modelled as lists of characters, machine integers as `Nat`
(the integers reachable here are hour values and `strconv.Atoi` results of
dash-free decimal tokens, all non-negative; overflow is unreachable for the
inputs the theorems touch), fallible evaluation as `Option`: `none` marks a
point where the Go code panics at run time.
-/

/-- Go strings are modelled as lists of characters. -/
abbrev Str := List Char

/-- Converts a Lean string literal into the model's character-list form. -/
def str (s : String) : Str := s.toList

/-- Leftmost search: the remainder of `s` just after the first occurrence of
the token `t`, or `none` when `t` does not occur inside `s`. This is the one
primitive behind `strings.Contains` and the unanchored literal-token regular
expressions of proxy.go. -/
def findAfter (t : Str) : Str → Option Str
  | [] => if t.isEmpty then some [] else none
  | c :: s => if t.isPrefixOf (c :: s) then some ((c :: s).drop t.length) else findAfter t s

/-- Model of Go `strings.Contains s pat`; note `strings.Contains s "" = true`. -/
def strContains (s pat : Str) : Bool := (findAfter pat s).isSome

/-- Model of an unanchored regular expression `.*t1.*t2...*tn.*` built from
literal tokens: it matches iff the tokens occur in order, disjointly, which
the leftmost-first search decides. -/
def matchSeq : List Str → Str → Bool
  | [], _ => true
  | t :: ts, s =>
    match findAfter t s with
    | none => false
    | some s' => matchSeq ts s'

/-- Model of Go `strings.Split s sep` for a one-character separator: the
result always has one more element than the number of separator occurrences,
so it is never empty, and a separator-free input yields the singleton `[s]`. -/
def splitOn (sep : Char) : Str → List Str
  | [] => [[]]
  | c :: s =>
    if c = sep then [] :: splitOn sep s
    else
      match splitOn sep s with
      | [] => [[c]]
      | p :: ps => (c :: p) :: ps

/-- Decimal-digit accumulation for the `strconv.Atoi` model; `none` as soon
as a non-digit character is met. -/
def digitsToNat : Nat → Str → Option Nat
  | acc, [] => some acc
  | acc, c :: s =>
    if '0' ≤ c ∧ c ≤ '9' then digitsToNat (acc * 10 + (c.toNat - '0'.toNat)) s else none

/-- Model of Go `strconv.Atoi` on the dash-free pieces produced by
`strings.Split(tok, "-")`: an optional leading plus sign followed by at least
one decimal digit parses to its value, anything else is an error (`none`).
A minus sign cannot occur in such a piece, so the result is a `Nat`; the
hour comparisons below only meet values small enough that 64-bit overflow is
out of reach. -/
def atoiNat : Str → Option Nat
  | [] => none
  | '+' :: s => if s.isEmpty then none else digitsToNat 0 s
  | s => digitsToNat 0 s

/-- `strconv.Atoi` with its error discarded, as proxy.go lines 162-163 do:
a failed parse leaves the Go variable at the zero value. -/
def atoiOrZero (s : Str) : Nat := (atoiNat s).getD 0

/-- One iteration of the hour-window loop of `IsDenied` (proxy.go lines
159-169) on the token `tok`, with current hour `h` and deny accumulator
`deny`. An empty token is skipped. Otherwise the token is split on `-` and
both halves are read with `strconv.Atoi`, errors ignored; the window turns
the accumulator on when `start ≤ h ≤ stop`. `none` models the run-time
panic: for a non-empty token with no dash, `strings.Split` yields a single
piece and the unconditional index `hours[1]` is out of range. -/
def hourStep (h : Nat) (deny : Bool) (tok : Str) : Option Bool :=
  if tok.isEmpty then some deny
  else
    match splitOn '-' tok with
    | start :: stop :: _ =>
      some (if decide (atoiOrZero start ≤ h) && decide (h ≤ atoiOrZero stop) then true else deny)
    | _ => none

/-- The whole hour-window loop of `IsDenied` over the token list `r.Hours`,
threading the deny accumulator through `hourStep`. -/
def hoursFold (h : Nat) : Bool → List Str → Option Bool
  | deny, [] => some deny
  | deny, tok :: toks =>
    match hourStep h deny tok with
    | none => none
    | some d => hoursFold h d toks

/-- Statement helper (not itself source code): token `tok` configures an
hour window containing hour `h`, i.e. `tok` is non-empty, splits on `-`
into at least two pieces, and the zero-defaulted bounds satisfy
`start ≤ h ≤ stop`. -/
def tokContains (h : Nat) (tok : Str) : Bool :=
  if tok.isEmpty then false
  else
    match splitOn '-' tok with
    | start :: stop :: _ => decide (atoiOrZero start ≤ h) && decide (h ≤ atoiOrZero stop)
    | _ => false

/-- Model of `(*Redirector).IsDenied` (proxy.go lines 148-175). The receiver
fields `Hosts`, `Blockmode`, `Hours`, `Clocking` and the current local hour
`h` (read from `time.Now().Clock()` inside the function) are explicit
arguments. The result is `none` exactly where the Go code panics (see
`hourStep`); otherwise `some` of the returned boolean. -/
def IsDenied (Hosts : List Str) (Blockmode : Bool) (Hours : List Str) (Clocking : Bool)
    (h : Nat) (host : Str) : Option Bool :=
  let found := Hosts.foldl (fun acc p => acc || strContains host p) false
  match (if 0 < Hours.length then hoursFold h Blockmode Hours else some Blockmode) with
  | none => none
  | some deny => some (found && (deny || Clocking))

/-- Model of `(*Redirector).InitHosts` (proxy.go lines 110-136). `none`
models a blacklist file that does not exist or cannot be opened: the error
is logged and the host list stays empty. Otherwise every line of the file,
empty lines included, is appended verbatim; lines are assumed to fit the
16 KiB read buffer. -/
def InitHosts (file : Option (List Str)) : List Str :=
  match file with
  | none => []
  | some lines => lines

/-- The spec's `TimeWindowSet.Parse(spec).Contains(h)` as the code realizes
it: `main` (line 49) splits the flag string on commas, and the hour loop of
`IsDenied` is run from a false deny accumulator. -/
def windowsContain (spec : Str) (h : Nat) : Option Bool :=
  hoursFold h false (splitOn ',' spec)

/-- One entry of the directory tree handed to `filepath.Walk`, in walk
order. `content = none` models a file on which `os.Open` fails; otherwise
the list of its lines (assumed to fit the 16 KiB read buffer). -/
structure OrgFile where
  path : Str
  isDir : Bool
  content : Option (List Str)

/-- The file filter of `Visit` (proxy.go line 199): the regular expression
`\.org` is unanchored, so a path passes exactly when it contains the four
characters ".org" as a substring anywhere. -/
def pathIsOrg (p : Str) : Bool := strContains p (str ".org")

/-- The regular expression `.*CLOCK:.*` of `Visit` (line 215): the line
contains the token "CLOCK:". -/
def isClock (line : Str) : Bool := strContains line (str "CLOCK:")

/-- The regular expression `.*CLOCK:.*--.*=>.*` of `Visit` (line 216):
"CLOCK:", "--" and "=>" occur in this order in the line. -/
def isEnded (line : Str) : Bool := matchSeq [str "CLOCK:", str "--", str "=>"] line

/-- The condition under which a line sets `r.Clocking` in `Visit` (line
218): an open clock marker. -/
def isOpenMarker (line : Str) : Bool := isClock line && !isEnded line

/-- The line loop of `Visit` (lines 211-223): every open clock marker sets
the clocking flag to true; nothing ever resets it inside the loop. -/
def scanLines (c : Bool) : List Str → Bool
  | [] => c
  | line :: lines => scanLines (if isOpenMarker line then true else c) lines

/-- Model of `(*Redirector).Visit` (lines 194-233) on one tree entry:
directories and paths without ".org" are passed over; a file that fails to
open has its error logged and returned (second component `true`), which is
a non-nil return to `filepath.Walk`; otherwise the file's lines are
scanned. The result pairs the new clocking flag with that error flag. -/
def Visit (c : Bool) (f : OrgFile) : Bool × Bool :=
  if f.isDir then (c, false)
  else if pathIsOrg f.path then
    match f.content with
    | none => (c, true)
    | some lines => (scanLines c lines, false)
  else (c, false)

/-- `filepath.Walk` over the flattened tree: entries are visited in order
and the walk stops as a whole the moment the walk function returns a
non-nil error. -/
def walkTree (c : Bool) : List OrgFile → Bool
  | [] => c
  | f :: fs =>
    match Visit c f with
    | (c', true) => c'
    | (c', false) => walkTree c' fs

/-- Model of `(*Redirector).IsClocking` (lines 189-192): the flag is reset
to false, then the tree is walked; the error result of `filepath.Walk` is
discarded. -/
def IsClocking (files : List OrgFile) : Bool := walkTree false files

/-- Statement helper: the tree entry is a readable non-directory file whose
path passes the ".org" filter and which contains an open clock marker. -/
def hasOpenFile (f : OrgFile) : Bool :=
  !f.isDir && pathIsOrg f.path && (f.content.getD []).any isOpenMarker

/-- The blacklist fold of `IsDenied` (lines 150-153) is the disjunction of
the per-pattern containment tests. -/
theorem foldl_or_contains (host : Str) (Hosts : List Str) :
    ∀ acc : Bool,
      Hosts.foldl (fun acc p => acc || strContains host p) acc
        = (acc || Hosts.any fun p => strContains host p) := by
  induction Hosts with
  | nil => intro acc; simp
  | cons p ps ih =>
    intro acc
    simp only [List.foldl_cons, List.any_cons, ih (acc || strContains host p), Bool.or_assoc]

/-- The guard `len(r.Hours) > 0` is redundant: on an empty token list the
hour loop leaves the accumulator untouched anyway. -/
theorem hoursGate (h : Nat) (bm : Bool) (toks : List Str) :
    (if 0 < toks.length then hoursFold h bm toks else some bm) = hoursFold h bm toks := by
  cases toks <;> simp [hoursFold]

/-- When the hour loop completes without panicking, its result is the deny
accumulator it started from, or-ed with "some token's window contains the
current hour". -/
theorem hoursFold_or (h : Nat) :
    ∀ (toks : List Str) (d d' : Bool),
      hoursFold h d toks = some d' → d' = (d || toks.any (tokContains h)) := by
  intro toks
  induction toks with
  | nil =>
    intro d d' heq
    simp only [hoursFold, Option.some.injEq] at heq
    simp [heq]
  | cons tok toks ih =>
    intro d d' heq
    simp only [hoursFold] at heq
    cases hstep : hourStep h d tok with
    | none => rw [hstep] at heq; cases heq
    | some d1 =>
      rw [hstep] at heq
      have hrec := ih d1 d' heq
      have hd1 : d1 = (d || tokContains h tok) := by
        unfold hourStep at hstep
        unfold tokContains
        by_cases hemp : tok.isEmpty
        · simp only [hemp, if_true] at hstep ⊢
          cases hstep; simp
        · simp only [hemp, if_false] at hstep ⊢
          cases hsp : splitOn '-' tok with
          | nil => rw [hsp] at hstep; cases hstep
          | cons p0 rest =>
            cases rest with
            | nil => rw [hsp] at hstep; cases hstep
            | cons p1 rest' =>
              rw [hsp] at hstep
              simp only [Option.some.injEq] at hstep
              cases hstep
              cases hb : decide (atoiOrZero p0 ≤ h) && decide (h ≤ atoiOrZero p1) <;>
                simp [hb]
      rw [hrec, hd1, List.any_cons, Bool.or_assoc]

/-- The line loop of `Visit` ors the incoming flag with "some line is an
open clock marker". -/
theorem scanLines_or (lines : List Str) :
    ∀ c : Bool, scanLines c lines = (c || lines.any isOpenMarker) := by
  induction lines with
  | nil => intro c; simp [scanLines]
  | cons l ls ih =>
    intro c
    rw [scanLines, ih]
    cases hm : isOpenMarker l <;> simp [hm, List.any_cons, Bool.or_assoc]

/-- On a tree whose every scanned file opens successfully, the walk never
aborts and computes the incoming flag or-ed with "some entry is a scanned
file containing an open clock marker". -/
theorem walkTree_or :
    ∀ files : List OrgFile,
      (∀ f ∈ files, f.isDir = false → pathIsOrg f.path = true → f.content.isSome = true) →
      ∀ c : Bool, walkTree c files = (c || files.any hasOpenFile) := by
  intro files
  induction files with
  | nil => intro _ c; simp [walkTree]
  | cons f fs ih =>
    intro hw c
    have hw1 := hw f (by simp)
    have hwt : ∀ g ∈ fs, g.isDir = false → pathIsOrg g.path = true → g.content.isSome = true :=
      fun g hg => hw g (by simp [hg])
    cases hd : f.isDir with
    | true =>
      simp only [walkTree, Visit, hd, if_true]
      rw [ih hwt c]
      simp [hasOpenFile, hd]
    | false =>
      cases hp : pathIsOrg f.path with
      | false =>
        simp only [walkTree, Visit, hd, hp, if_false, Bool.false_eq_true]
        rw [ih hwt c]
        simp [hasOpenFile, hp]
      | true =>
        cases hc : f.content with
        | none => exact absurd (hw1 hd hp) (by simp [hc])
        | some lines =>
          simp only [walkTree, Visit, hd, hp, hc, if_false, if_true, Bool.false_eq_true]
          rw [ih hwt (scanLines c lines), scanLines_or]
          simp [hasOpenFile, hd, hp, hc, Bool.or_assoc]

/-- Claim C1: for every host string, blacklist, block-mode flag, hour-window
configuration, current hour and clocking value on which `IsDenied` returns
a verdict, the verdict is true iff some blacklist pattern is a substring of
the host AND (block-mode is on, or the current hour lies inclusively inside
some configured window, or the clocking flag is on):
deny = matched AND (timeDeny OR clockingState). -/
theorem c1_denial_formula (Hosts : List Str) (Blockmode : Bool) (Hours : List Str)
    (Clocking : Bool) (h : Nat) (host : Str) (b : Bool)
    (heq : IsDenied Hosts Blockmode Hours Clocking h host = some b) :
    (b = true ↔ ((∃ p ∈ Hosts, strContains host p = true) ∧
      (Blockmode = true ∨ (∃ t ∈ Hours, tokContains h t = true) ∨ Clocking = true))) := by
  unfold IsDenied at heq
  rw [hoursGate] at heq
  cases hf : hoursFold h Blockmode Hours with
  | none => rw [hf] at heq; cases heq
  | some d =>
    rw [hf] at heq
    simp only [Option.some.injEq] at heq
    subst heq
    rw [hoursFold_or h Hours Blockmode d hf, foldl_or_contains]
    simp only [Bool.false_or, Bool.and_eq_true, Bool.or_eq_true, List.any_eq_true, or_assoc]

/-- Claim C1 witness: at a concrete blocked input the formula evaluates as
stated. -/
theorem c1_witness :
    (true = true ↔ ((∃ p ∈ [str "bad"], strContains (str "xbad.io") p = true) ∧
      (false = true ∨ (∃ t ∈ [str "8-11"], tokContains 9 t = true) ∨ false = true))) :=
  c1_denial_formula [str "bad"] false [str "8-11"] false 9 (str "xbad.io") true (by decide)

/-- Claim C2: after one complete scan cycle (every scanned file opens
successfully, so the walk is not aborted), the published clocking state is
true iff some line of some scanned file — a readable non-directory entry
whose path passes the ".org" filter — is an open clock marker; the cycle
starts from false, so the previous state is overwritten wholesale. -/
theorem c2_scan_cycle (files : List OrgFile)
    (hw : ∀ f ∈ files, f.isDir = false → pathIsOrg f.path = true → f.content.isSome = true) :
    (IsClocking files = true ↔
      ∃ f ∈ files, f.isDir = false ∧ pathIsOrg f.path = true ∧
        ∃ line ∈ f.content.getD [], isOpenMarker line = true) := by
  rw [IsClocking, walkTree_or files hw false]
  simp [hasOpenFile, List.any_eq_true, Bool.and_eq_true, and_assoc]

/-- Claim C2 witness: a concrete one-file tree with an open marker. -/
theorem c2_witness :
    (IsClocking [⟨str "a.org", false, some [str "CLOCK: [2024-01-01 Mon 09:00]"]⟩] = true ↔
      ∃ f ∈ [(⟨str "a.org", false, some [str "CLOCK: [2024-01-01 Mon 09:00]"]⟩ : OrgFile)],
        f.isDir = false ∧ pathIsOrg f.path = true ∧
          ∃ line ∈ f.content.getD [], isOpenMarker line = true) :=
  c2_scan_cycle [⟨str "a.org", false, some [str "CLOCK: [2024-01-01 Mon 09:00]"]⟩] (by decide)

/-- Claim C3 (code bug): `IsDenied` is not total. With the hour flag set to
the dash-free token "morning" (so `r.Hours = ["morning"]` after the comma
split in `main`), evaluation of any host reaches `hours[1]` on a
one-element slice and panics with an index-out-of-range run-time error,
modelled here by `none`. -/
theorem c3_panic_on_dashless_token :
    splitOn ',' (str "morning") = [str "morning"] ∧
    IsDenied [str "bad"] true (splitOn ',' (str "morning")) false 10 (str "example.com")
      = none := by
  constructor <;> decide

/-- Claim C4 (code bug): a token whose halves are both non-numeric is not
"no restriction": the ignored `strconv.Atoi` errors leave both bounds at 0,
giving the window [0,0], which turns the deny accumulator on at hour 0 (and
only there). -/
theorem c4_nonnumeric_token_blocks_hour_zero :
    IsDenied [str "x"] false [str "a-b"] false 0 (str "x.com") = some true ∧
    IsDenied [str "x"] false [str "a-b"] false 1 (str "x.com") = some false := by
  constructor <;> decide

/-- Claim C5 (code bug): an empty blacklist line is not special-cased. The
loader appends it as an empty pattern, `strings.Contains(host, "")` is true
for every host, so with block-mode on a blacklist consisting of one empty
line denies every host instead of none. -/
theorem c5_empty_pattern_matches_everything :
    InitHosts (some [str ""]) = [str ""] ∧
    strContains (str "example.com") (str "") = true ∧
    IsDenied (InitHosts (some [str ""])) true [str ""] false 10 (str "example.com")
      = some true := by
  refine ⟨rfl, by decide, by decide⟩

/-- Claim C6 counterexample: an open error on the first file makes the walk
stop, so the open clock marker in the file visited after it is NOT observed
in that cycle — the same file alone yields true. -/
theorem c6_counterexample :
    IsClocking [⟨str "a.org", false, none⟩,
      ⟨str "b.org", false, some [str "CLOCK: [2024-01-01 Mon 09:00]"]⟩] = false ∧
    IsClocking [⟨str "b.org", false, some [str "CLOCK: [2024-01-01 Mon 09:00]"]⟩] = true := by
  constructor <;> decide

/-- Claim C6 amended: `Visit` logs the open error and returns it, and
`filepath.Walk` then aborts the remainder of the cycle: the cycle's result
is exactly the result of walking the entries before the failing file;
entries after it are never visited (the watcher itself survives, since
`IsClocking` discards the walk's error). -/
theorem c6_error_aborts_walk (pre : List OrgFile) (p : Str) (rest : List OrgFile) (c : Bool)
    (hp : pathIsOrg p = true) :
    walkTree c (pre ++ (⟨p, false, none⟩ : OrgFile) :: rest) = walkTree c pre := by
  induction pre generalizing c with
  | nil => simp [walkTree, Visit, hp]
  | cons g gs ih =>
    simp only [List.cons_append, walkTree]
    cases hv : Visit c g with
    | mk c' e =>
      cases e with
      | true => rfl
      | false => exact ih c'

/-- Claim C6 amended witness: a concrete three-entry tree where the failing
second file cuts the walk down to its first entry. -/
theorem c6_witness :
    walkTree false
      ([⟨str "b.org", false, some [str "CLOCK: [2024-01-01 Mon 09:00]"]⟩] ++
        (⟨str "a.org", false, none⟩ : OrgFile) ::
          [⟨str "c.org", false, some [str "CLOCK: [2024-01-02 Tue 08:00]"]⟩])
      = walkTree false [⟨str "b.org", false, some [str "CLOCK: [2024-01-01 Mon 09:00]"]⟩] :=
  c6_error_aborts_walk [⟨str "b.org", false, some [str "CLOCK: [2024-01-01 Mon 09:00]"]⟩]
    (str "a.org") [⟨str "c.org", false, some [str "CLOCK: [2024-01-02 Tue 08:00]"]⟩] false
    (by decide)

/-- Claim C7: when the blacklist file cannot be opened the loader returns an
empty host list, and with an empty host list every completed evaluation is
false, whatever the hour, hour windows, block-mode and clocking are: the
system fails open. -/
theorem c7_fail_open :
    InitHosts none = [] ∧
    ∀ (Blockmode : Bool) (Hours : List Str) (Clocking : Bool) (h : Nat) (host : Str) (b : Bool),
      IsDenied (InitHosts none) Blockmode Hours Clocking h host = some b → b = false := by
  refine ⟨rfl, ?_⟩
  intro bm toks clk h host b heq
  unfold IsDenied InitHosts at heq
  rw [hoursGate] at heq
  cases hf : hoursFold h bm toks with
  | none => rw [hf] at heq; cases heq
  | some d =>
    rw [hf] at heq
    simp only [List.foldl_nil, Bool.false_and, Option.some.injEq] at heq
    exact heq.symm

/-- Claim C7 witness: a concrete adversarial configuration (block-mode on,
matching window) still evaluates to false with the empty loaded list. -/
theorem c7_witness :
    IsDenied (InitHosts none) true [str "8-11"] false 9 (str "example.com") = some false ∧
    false = false :=
  ⟨by decide, c7_fail_open.2 true [str "8-11"] false 9 (str "example.com") false (by decide)⟩

/-- Claim C8: if no blacklist pattern is a substring of the host, every
completed evaluation returns false, for every hour, hour-window
configuration, block-mode value and clocking value. -/
theorem c8_unmatched_host_allowed (Hosts : List Str) (Blockmode : Bool) (Hours : List Str)
    (Clocking : Bool) (h : Nat) (host : Str) (b : Bool)
    (hmiss : ∀ p ∈ Hosts, strContains host p = false)
    (heq : IsDenied Hosts Blockmode Hours Clocking h host = some b) :
    b = false := by
  unfold IsDenied at heq
  rw [hoursGate] at heq
  cases hf : hoursFold h Blockmode Hours with
  | none => rw [hf] at heq; cases heq
  | some d =>
    rw [hf] at heq
    rw [foldl_or_contains] at heq
    have hany : (Hosts.any fun p => strContains host p) = false := by
      cases ha : Hosts.any fun p => strContains host p with
      | false => rfl
      | true =>
        obtain ⟨p, hpmem, hpc⟩ := List.any_eq_true.mp ha
        rw [hmiss p hpmem] at hpc
        cases hpc
    rw [hany] at heq
    simp only [Bool.or_false, Bool.false_and, Option.some.injEq] at heq
    exact heq.symm

/-- Claim C8 witness: a host containing none of the patterns is allowed even
with block-mode on and a matching hour window. -/
theorem c8_witness :
    IsDenied [str "bad", str "evil"] true [str "8-11"] false 9 (str "good.com") = some false ∧
    false = false :=
  ⟨by decide,
    c8_unmatched_host_allowed [str "bad", str "evil"] true [str "8-11"] false 9 (str "good.com")
      false (by decide) (by decide)⟩

/-- Claim C9: hour-window membership is inclusive on both ends — a
well-formed token restricts exactly the hours h with start ≤ h ≤ stop —
and on the spec string "8-11,13-17" hour 9 is contained, hour 12 is not,
and hour 17 is contained. -/
theorem c9_inclusive_windows :
    (∀ (h : Nat) (tok start stop : Str) (rest : List Str),
      splitOn '-' tok = start :: stop :: rest → tok.isEmpty = false →
      hourStep h false tok
        = some (decide (atoiOrZero start ≤ h) && decide (h ≤ atoiOrZero stop))) ∧
    windowsContain (str "8-11,13-17") 9 = some true ∧
    windowsContain (str "8-11,13-17") 12 = some false ∧
    windowsContain (str "8-11,13-17") 17 = some true := by
  refine ⟨?_, by decide, by decide, by decide⟩
  intro h tok start stop rest hsp hemp
  unfold hourStep
  rw [hemp, hsp]
  simp only [Bool.false_eq_true, if_false, Option.some.injEq]
  cases hb : decide (atoiOrZero start ≤ h) && decide (h ≤ atoiOrZero stop) <;> simp [hb]

/-- Claim C9 witness: the upper bound is inclusive at the concrete token
"13-17" and hour 17. -/
theorem c9_witness :
    hourStep 17 false (str "13-17")
      = some (decide (atoiOrZero (str "13") ≤ 17) && decide (17 ≤ atoiOrZero (str "17"))) :=
  c9_inclusive_windows.1 17 (str "13-17") (str "13") (str "17") [] (by decide) (by decide)

/-- Claim C10: the watcher's file filter is an unanchored substring test on
the full path: a non-directory entry whose path contains no ".org" is
skipped regardless of its content, while "notes.orgbak" and a file inside a
directory named "my.orgfiles" are scanned (their open markers are seen) and
"notes.txt" is not. -/
theorem c10_org_substring_filter :
    (∀ (p : Str) (c : Bool) (cont : Option (List Str)) (fs : List OrgFile),
      strContains p (str ".org") = false →
      walkTree c ((⟨p, false, cont⟩ : OrgFile) :: fs) = walkTree c fs) ∧
    IsClocking [⟨str "notes.orgbak", false, some [str "CLOCK: [2024-02-02 Fri 10:00]"]⟩]
      = true ∧
    IsClocking [⟨str "my.orgfiles/todo.txt", false, some [str "CLOCK: [2024-02-02 Fri 10:00]"]⟩]
      = true ∧
    IsClocking [⟨str "notes.txt", false, some [str "CLOCK: [2024-02-02 Fri 10:00]"]⟩]
      = false := by
  refine ⟨?_, by decide, by decide, by decide⟩
  intro p c cont fs hnp
  simp [walkTree, Visit, pathIsOrg, hnp]

/-- Claim C10 witness: a concrete ".org"-free path is skipped even though
its content holds an open marker. -/
theorem c10_witness :
    walkTree false
      [(⟨str "plain.txt", false, some [str "CLOCK: [2024-02-02 Fri 10:00]"]⟩ : OrgFile)]
      = walkTree false [] :=
  c10_org_substring_filter.1 (str "plain.txt") false
    (some [str "CLOCK: [2024-02-02 Fri 10:00]"]) [] (by decide)
